import Mathlib

/-!
Verification development for the sdbc SurrealDB client (go-surreal/sdbc).

This file gives a shallow embedding of the parts of the client relevant to the
frozen claims: the CBOR value codec for the custom SurrealDB types (types.go,
cbor.go), the pending-request and live-query registries (stores.go), the
request writer (methods.go, Client.send), the reader/dispatcher
(Client.read, Client.handleMessage, Client.handleResult), the client
construction and initialisation sequence (client.go, NewClient and
Client.init), and the live-query initiation path (methods.go, Client.Live).

Wire bytes are modelled by an abstract CBOR value tree: the byte-level CBOR
encoding of such a tree is injective, so equalities and shape distinctions on
trees are faithful to equalities and shape distinctions on the byte strings the
Go code produces and consumes.
-/

namespace Sdbc

/-- Abstract CBOR data items as produced and consumed by the
github.com/fxamacker/cbor/v2 library used by the client. One constructor per
major shape the client touches: null, undefined, booleans, integers, text
strings, byte strings, arrays, a float payload kept abstract as its bit
pattern, and tagged items. -/
inductive CborVal where
  | null
  | undef
  | bool (b : Bool)
  | int (n : Int)
  | str (s : String)
  | bytes (bs : List Nat)
  | flt (bits : Nat)
  | arr (xs : List CborVal)
  | tag (num : Nat) (content : CborVal)

/-- Tag number for a NONE value (cbor.go, CBORTagNone). -/
def cborTagNone : Nat := 6

/-- Tag number for a table name as a string (cbor.go, cborTagTable). -/
def cborTagTable : Nat := 7

/-- Tag number for a RecordID (cbor.go, cborTagRecordID). -/
def cborTagRecordID : Nat := 8

/-- Tag number for a Decimal (cbor.go, cborTagDecimal). -/
def cborTagDecimal : Nat := 10

/-- Tag number for a DateTime (cbor.go, cborTagDatetime). -/
def cborTagDatetime : Nat := 12

/-- Tag number for a Duration (cbor.go, cborTagDuration). -/
def cborTagDuration : Nat := 14

/-- Errors surfaced by the embedded encode and decode paths. -/
inductive CodecErr where
  | tableNameRequired
  | dataInvalid
  | unmarshalFailed
  | unmarshalTypeError
  | unmarshalNotSupported
  deriving DecidableEq

--
-- RECORD IDS (types.go)
--

/-- Concrete record identifier: a table name together with an optional
identifier value (types.go, type ID). The Go identifier field has type any
with nil allowed; it is modelled as an optional CBOR value. -/
structure ID where
  table : String
  identifier : Option CborVal

/-- Embedding of ID.MarshalCBOR (types.go). An empty table is rejected; a nil
identifier encodes the bare table string under the table tag; otherwise the
pair of table and identifier encodes as a two-element array under the
record-id tag. -/
def ID.marshalCBOR (id : ID) : Except CodecErr CborVal :=
  if id.table = "" then
    .error .tableNameRequired
  else
    match id.identifier with
    | none => .ok (.tag cborTagTable (.str id.table))
    | some idv => .ok (.tag cborTagRecordID (.arr [.str id.table, idv]))

/-- Constructed record identifier: a table name and a constructor call such as
rand(), ulid() or uuid() (types.go, type newRecordID). -/
structure NewRecordID where
  table : String
  ctor : String

/-- Embedding of newRecordID.MarshalCBOR (types.go). The string
table:constructor is encoded under the record-id tag. Note that, unlike
ID.MarshalCBOR, this method performs no emptiness check on the table name. -/
def NewRecordID.marshalCBOR (id : NewRecordID) : Except CodecErr CborVal :=
  .ok (.tag cborTagRecordID (.str (id.table ++ ":" ++ id.ctor)))

/-- Constructor string for a random id (types.go, newRand). -/
def newRand : String := "rand()"

/-- Embedding of NewID (types.go): a constructed id with the rand()
constructor. -/
def NewID (table : String) : NewRecordID :=
  ⟨table, newRand⟩

--
-- HELPER: decoding into a Go []int64 (the cbor library behaviour)
--

/-- Element-wise reading of a CBOR array as a list of integers; fails on any
non-integer element. -/
def intListOf : List CborVal → Option (List Int)
  | [] => some []
  | .int n :: rest => (intListOf rest).map fun t => n :: t
  | _ => none

/-- Result of cbor.Unmarshal of a data item into a Go []int64 slice: tags are
ignored and their content decoded (default DecTagIgnored behaviour), null
yields the nil slice (length zero), an array of integers yields the list, and
anything else fails. -/
def asIntList : CborVal → Option (List Int)
  | .null => some []
  | .undef => some []
  | .tag _ c => asIntList c
  | .arr xs => intListOf xs
  | _ => none

--
-- DATETIME (types.go)
--

/-- Embedding of DateTime.MarshalCBOR (types.go). A nil receiver marshals a
plain CBOR null; otherwise the pair of Unix seconds and nanoseconds is
encoded as a two-element array under the datetime tag. -/
def DateTime.marshalCBOR : Option (Int × Int) → Except CodecErr CborVal
  | none => .ok .null
  | some (secs, nanos) =>
      .ok (.tag cborTagDatetime (.arr [.int secs, .int nanos]))

/-- Embedding of DateTime.UnmarshalCBOR (types.go). The input is decoded into
an int64 slice; a length of one or two elements is accepted (seconds from the
first element, nanoseconds zero when absent, from the second element
otherwise); any other length is rejected and the receiver is left
unmodified. The result models the seconds and nanoseconds passed to
time.Unix. -/
def DateTime.unmarshalCBOR (data : CborVal) : Except CodecErr (Int × Int) :=
  match asIntList data with
  | none => .error .unmarshalFailed
  | some [] => .error .dataInvalid
  | some [s] => .ok (s, 0)
  | some [s, n] => .ok (s, n)
  | some _ => .error .dataInvalid

--
-- DURATION (types.go)
--

/-- Two to the sixty-third power, the magnitude bound of a Go int64. -/
def i64Bound : Int := 9223372036854775808

/-- Wrapping of an integer into the two's-complement int64 range, modelling Go
int64 overflow semantics for arithmetic on time.Duration values. -/
def wrap64 (x : Int) : Int :=
  (x + i64Bound) % (2 * i64Bound) - i64Bound

/-- Embedding of Duration.MarshalCBOR (types.go) for a non-nil receiver. The
duration d is the int64 nanosecond count. The Go code computes totalSeconds
as int64(d.Seconds()), a conversion through a float64; its rounding is left
abstract here: the parameter s stands for whatever int64 that conversion
produced. remainingNanoseconds is then d minus s times one billion, in
wrapping int64 arithmetic, and the pair [s, remaining] is encoded under the
duration tag. -/
def Duration.marshalCBOR (d s : Int) : CborVal :=
  .tag cborTagDuration (.arr [.int s, .int (wrap64 (d - wrap64 (s * 1000000000)))])

/-- Embedding of Duration.UnmarshalCBOR (types.go). The input is decoded into
an int64 slice; an empty slice yields the zero duration, the first element
contributes seconds, the second contributes nanoseconds (both additions in
wrapping int64 arithmetic, as time.Duration is an int64), and more than two
elements is an error. -/
def Duration.unmarshalCBOR (data : CborVal) : Except CodecErr Int :=
  match asIntList data with
  | none => .error .unmarshalFailed
  | some [] => .ok 0
  | some [s] => .ok (wrap64 (s * 1000000000))
  | some [s, n] => .ok (wrap64 (wrap64 (s * 1000000000) + n))
  | some _ => .error .dataInvalid

/-- Embedding of the nil-receiver case of Duration.MarshalCBOR (types.go): a
nil receiver marshals a plain CBOR null, a non-nil one defers to
Duration.marshalCBOR with the abstract seconds parameter. -/
def Duration.marshalCBOROpt (sOf : Int → Int) : Option Int → Except CodecErr CborVal
  | none => .ok .null
  | some d => .ok (Duration.marshalCBOR d (sOf d))

--
-- DECIMAL (types.go)
--

/-- Embedding of Decimal.MarshalCBOR (types.go). A nil receiver marshals a
plain CBOR null; otherwise the inner float64 (kept abstract as its bit
pattern) is encoded under the decimal tag. -/
def Decimal.marshalCBOR : Option Nat → Except CodecErr CborVal
  | none => .ok .null
  | some bits => .ok (.tag cborTagDecimal (.flt bits))

--
-- ZERO-AS-NONE WRAPPER (cbor.go)
--

/-- Plain codec for an inner type of the ZeroAsNone wrapper: its zero value,
its plain cbor.Marshal encoding, and its plain cbor.Unmarshal decoding. -/
structure PlainCodec (T : Type) where
  zero : T
  enc : T → CborVal
  dec : CborVal → Except CodecErr T

/-- Embedding of ZeroAsNone.MarshalCBOR (cbor.go): the zero value encodes as
the none tag wrapping a null payload; any other value encodes as its plain
encoding. -/
def ZeroAsNone.marshalCBOR {T : Type} [DecidableEq T] (C : PlainCodec T) (v : T) : CborVal :=
  if v = C.zero then .tag cborTagNone .null else C.enc v

/-- Result of cbor.Unmarshal of a data item into a cbor.RawTag. Modelled from
github.com/fxamacker/cbor/v2 (RawTag.UnmarshalCBOR): decoding null or
undefined is a no-op, leaving the RawTag at its zero value (number 0, empty
content); decoding a tagged item fills number and content; any other item
fails with an UnmarshalTypeError. -/
inductive RawTagRes where
  | noop
  | tagged (num : Nat) (content : CborVal)

/-- Decoding of a data item into a cbor.RawTag, see RawTagRes. -/
def rawTagUnmarshal : CborVal → Except CodecErr RawTagRes
  | .null => .ok .noop
  | .undef => .ok .noop
  | .tag n c => .ok (.tagged n c)
  | _ => .error .unmarshalTypeError

/-- Embedding of ZeroAsNone.UnmarshalCBOR (cbor.go). The data is decoded into
a cbor.RawTag; on failure the error propagates. If the tag number is the
none tag the method returns early, leaving the (fresh, hence zero) inner
value. Otherwise the tag content is decoded into the inner value. When the
RawTag decode was a no-op (input null or undefined), the tag number is 0 and
the content is empty, so the inner decode runs on empty data and fails. -/
def ZeroAsNone.unmarshalCBOR {T : Type} (C : PlainCodec T) (data : CborVal) : Except CodecErr T :=
  match rawTagUnmarshal data with
  | .error e => .error e
  | .ok .noop => .error .unmarshalFailed
  | .ok (.tagged n c) =>
      if n = cborTagNone then .ok C.zero
      else match C.dec c with
        | .error e => .error e
        | .ok v => .ok v

/-- Whether a data item is a tagged item (the shapes RawTag decoding accepts
besides the null and undefined no-ops). -/
def CborVal.isTagged : CborVal → Bool
  | .tag _ _ => true
  | _ => false

/-- Whether a data item is null or undefined (the RawTag decoding no-ops). -/
def CborVal.isNullish : CborVal → Bool
  | .null => true
  | .undef => true
  | _ => false

/-- Concrete plain codec for strings, used to exhibit inputs to the
ZeroAsNone wrapper: a Go string encodes as a CBOR text string and decodes
from one. -/
def strCodec : PlainCodec String where
  zero := ""
  enc := .str
  dec := fun v => match v with
    | .str s => .ok s
    | _ => .error .unmarshalTypeError

--
-- PENDING REQUEST AND LIVE QUERY REGISTRIES (stores.go)
--

/-- Correlation keys are short strings (stores.go, newRequestKey). -/
abbrev Key := String

/-- Channels are identified by an abstract identity; a fresh channel is a
channel identity not yet in use. -/
abbrev Chan := Nat

/-- Lookup in a Go map modelled as an association list: the embedding of
requests.get and, with create set to false, of liveQueries.get (stores.go).
Registry states reached by the embedded operations never hold two entries
with the same key, matching Go map semantics. -/
def Requests.get : List (Key × Chan) → Key → Option Chan
  | [], _ => none
  | (k, c) :: rest, key => if key = k then some c else Requests.get rest key

/-- Removal of every entry with the given key, the map part of requests.del
and liveQueries.del (stores.go). On states with unique keys this removes the
single entry, exactly as the Go map delete does. -/
def Requests.remove (st : List (Key × Chan)) (key : Key) : List (Key × Chan) :=
  st.filter fun e => !(e.1 = key)

/-- Insertion into a Go map modelled on association lists: any previous entry
for the key is replaced. This is the map part of requests.prepare
(stores.go), which stores a fresh delivery channel under a newly minted
correlation key. -/
def Requests.insert (st : List (Key × Chan)) (key : Key) (c : Chan) : List (Key × Chan) :=
  (key, c) :: Requests.remove st key

/-- Pending-request registry state: the live store together with the channels
that have been closed so far (close happens in requests.del and
requests.reset, stores.go). -/
structure ReqState where
  store : List (Key × Chan)
  closedChans : List Chan

/-- Embedding of requests.prepare (stores.go) given the freshly minted key and
channel: the channel is stored under the key. -/
def ReqState.prepare (st : ReqState) (key : Key) (c : Chan) : ReqState :=
  { st with store := Requests.insert st.store key c }

/-- Embedding of requests.del (stores.go): when an entry for the key exists,
its channel is closed and the entry removed; otherwise nothing happens. -/
def ReqState.del (st : ReqState) (key : Key) : ReqState :=
  match Requests.get st.store key with
  | none => st
  | some c => { store := Requests.remove st.store key, closedChans := c :: st.closedChans }

/-- Embedding of requests.reset (stores.go): every stored channel is closed
and the store is emptied. liveQueries.reset behaves identically. -/
def ReqState.reset (st : ReqState) : ReqState :=
  { store := [], closedChans := st.store.map Prod.snd ++ st.closedChans }

--
-- RESPONSE ENVELOPES AND THE READER / DISPATCHER (src/unnamed/part_013)
--

/-- Server-side error payload of a response envelope (types.go, type
responseError). -/
structure RespError where
  code : Int
  message : String

/-- Response envelope (types.go, type response): correlation id, raw result
bytes, optional error payload. Raw bytes are modelled as byte lists. -/
structure Response where
  id : String
  result : List Nat
  error : Option RespError

/-- Error kinds of the embedded send and read paths, mirroring the error
values of src/unnamed/part_012 and the wrapped transport errors. The
constructor expectedTextMessage mirrors the source variable
ErrExpectedTextMessage, the framing-violation error the specification calls
ExpectedBinaryMessage (its message text names the expected frame type). -/
inductive ClientErr where
  | contextNil
  | contextDone
  | channelClosed
  | resultWithError (code : Int) (message : String)
  | expectedTextMessage
  | readerFailed
  | readFailed
  | writeFailed
  | invalidNamespaceName
  | invalidDatabaseName
  | emptyResponse
  | couldNotGetLiveQueryChannel
  deriving DecidableEq

/-- Delivery value placed on a pending-request channel (stores.go, type
output): raw result bytes and an optional error. -/
structure Output where
  data : List Nat
  err : Option ClientErr

/-- Winning branch of the three-way select in Client.handleResult and
Client.handleLiveQuery (src/unnamed/part_013): either the channel send is
taken, or the connection context is done, or the send timeout fires. The two
latter branches drop the message. -/
inductive SelectBranch where
  | deliver
  | ctxDone
  | timeout

/-- Embedding of Client.handleResult (src/unnamed/part_013): the pending
registry is consulted under the response id; if no entry exists the response
is logged and dropped; otherwise the output (result bytes plus the
ResultWithError translation of the error payload) is delivered on the found
channel, unless the context-done or timeout select branch wins, in which case
the message is dropped. The value is the channel that received a delivery,
with the delivered output, or none when nothing was delivered. -/
def handleResult (reqs : List (Key × Chan)) (res : Response) (sel : SelectBranch) :
    Option (Chan × Output) :=
  match Requests.get reqs res.id with
  | none => none
  | some ch =>
      match sel with
      | .deliver => some (ch, ⟨res.result, res.error.map fun e => .resultWithError e.code e.message⟩)
      | .ctxDone => none
      | .timeout => none

/-- Where a fully decoded inbound envelope ends up (src/unnamed/part_013,
Client.handleMessage): dropped, delivered to a pending-request channel, or
delivered to a live-query channel. -/
inductive Dispatch where
  | dropped
  | pending (ch : Chan) (out : Output)
  | live (ch : Chan) (raw : List Nat)

/-- Embedding of Client.handleMessage together with Client.handleLiveQuery
(src/unnamed/part_013). The payload is decoded into a response envelope (the
decoder decodeResp stands for the configured cbor unmarshal); failure drops
the frame. An empty id with an error payload is logged and dropped. An empty
id otherwise takes the live-query path: the result bytes are decoded into a
liveQueryID (decoder decodeLiveID); the subscription registry is consulted
without creation; a missing channel, a decode failure, or a losing select
branch drops the message, otherwise the raw result bytes go to the
subscription channel. A non-empty id takes the pending-request path of
handleResult. -/
def handleMessage (decodeResp : List Nat → Option Response)
    (decodeLiveID : List Nat → Option String)
    (reqs : List (Key × Chan)) (lives : List (Key × Chan))
    (payload : List Nat) (sel : SelectBranch) : Dispatch :=
  match decodeResp payload with
  | none => .dropped
  | some res =>
      if res.id = "" then
        match res.error with
        | some _ => .dropped
        | none =>
            match decodeLiveID res.result with
            | none => .dropped
            | some innerID =>
                match Requests.get lives innerID with
                | none => .dropped
                | some ch =>
                    match sel with
                    | .deliver => .live ch res.result
                    | .ctxDone => .dropped
                    | .timeout => .dropped
      else
        match handleResult reqs res sel with
        | none => .dropped
        | some (ch, out) => .pending ch out

/-- Frame types of the websocket transport. -/
inductive MsgType where
  | binary
  | text
  deriving DecidableEq

/-- An inbound websocket frame: its message type and payload bytes. -/
structure Frame where
  msgType : MsgType
  payload : List Nat

/-- Embedding of Client.read (src/unnamed/part_013): a nil context or a done
context fails first; obtaining the frame reader may fail; a frame whose
message type is not binary fails with the framing-violation error (the
ErrExpectedTextMessage value) before any payload is buffered; reading the
payload into the pooled buffer may fail; otherwise the payload bytes are
returned. -/
def Client.read (ctxNil ctxDone : Bool) (readerOk : Bool) (f : Frame) (readOk : Bool) :
    Except ClientErr (List Nat) :=
  if ctxNil then .error .contextNil
  else if ctxDone then .error .contextDone
  else if !readerOk then .error .readerFailed
  else if f.msgType ≠ MsgType.binary then .error .expectedTextMessage
  else if !readOk then .error .readFailed
  else .ok f.payload

/-- One turn of the reader task for one inbound frame (src/unnamed/part_013,
Client.subscribe and Client.handleMessages): when Client.read fails the error
is logged (or ends the loop) and nothing is decoded or dispatched; when it
succeeds the buffered payload is handed to handleMessage. -/
def subscribeStep (ctxNil ctxDone readerOk : Bool) (f : Frame) (readOk : Bool)
    (decodeResp : List Nat → Option Response) (decodeLiveID : List Nat → Option String)
    (reqs : List (Key × Chan)) (lives : List (Key × Chan)) (sel : SelectBranch) : Dispatch :=
  match Client.read ctxNil ctxDone readerOk f readOk with
  | .error _ => .dropped
  | .ok payload => handleMessage decodeResp decodeLiveID reqs lives payload sel

--
-- THE WRITER: Client.send (methods.go)
--

/-- Outcome of the select in Client.send (methods.go) once the request was
written: the caller context ends, the delivery channel is closed (the
receive reports no more values), or an output is received. -/
inductive WaitOutcome where
  | ctxDone
  | chanClosed
  | delivered (out : Output)

/-- Embedding of Client.send (methods.go). A fresh correlation key and channel
are minted and registered (requests.prepare); the deferred cleanup
(requests.cleanup, that is requests.del of the key) runs on every exit path.
If the write fails the error propagates; otherwise the select either returns
the context error, translates a closed channel into ErrChannelClosed, or
returns the delivered data and error. The value is the call result paired
with the registry state after send returns. -/
def Client.send (st : ReqState) (freshKey : Key) (freshChan : Chan)
    (writeOk : Bool) (w : WaitOutcome) : Except ClientErr (List Nat) × ReqState :=
  let st1 := st.prepare freshKey freshChan
  let callRes : Except ClientErr (List Nat) :=
    if !writeOk then .error .writeFailed
    else
      match w with
      | .ctxDone => .error .contextDone
      | .chanClosed => .error .channelClosed
      | .delivered out =>
          match out.err with
          | some e => .error e
          | none => .ok out.data
  (callRes, st1.del freshKey)

--
-- CLIENT CONSTRUCTION (client.go)
--

/-- Embedding of the package regular expression regexName (client.go),
matching a name against the anchored pattern of one or more ASCII letters,
digits or underscores. -/
def regexName (s : String) : Bool :=
  s.length > 0 && s.data.all fun c =>
    (decide ('A' ≤ c) && decide (c ≤ 'Z')) ||
    (decide ('a' ≤ c) && decide (c ≤ 'z')) ||
    (decide ('0' ≤ c) && decide (c ≤ '9')) ||
    c = '_'

/-- Client configuration fields relevant to construction (client.go, type
Config). The namespace field is named ns because namespace is a Lean
keyword. -/
structure Config where
  host : String
  ns : String
  database : String

/-- Externally visible I/O events of client construction: the websocket dial
of openWebsocket, and the RPC requests issued by Client.init. -/
inductive IOEvent where
  | dial
  | rpcSignIn
  | rpcUse
  | rpcQuery (q : String)
  deriving DecidableEq

/-- Embedding of the control flow of NewClient and Client.init (client.go),
with the transport and the server assumed well-behaved (the claim under
study concerns the validation path, which does not depend on their
failures). NewClient sets up the codec (pure), calls openWebsocket - which
dials the server and spawns the reader - and only then calls Client.init,
which validates the namespace and database names against regexName before
issuing the sign-in, use and DEFINE queries. The value is the list of I/O
events performed, in order, paired with the error returned, if any. -/
def NewClient (conf : Config) : List IOEvent × Option ClientErr :=
  if !regexName conf.ns then
    ([.dial], some .invalidNamespaceName)
  else if !regexName conf.database then
    ([.dial], some .invalidDatabaseName)
  else
    ([.dial, .rpcSignIn, .rpcUse,
      .rpcQuery ("DEFINE NAMESPACE IF NOT EXISTS " ++ conf.ns),
      .rpcQuery ("DEFINE DATABASE IF NOT EXISTS " ++ conf.database)], none)

--
-- LIVE QUERY INITIATION (methods.go, Client.Live)
--

/-- Outcome of the subscription-key extraction inside Client.Live: the key, an
ErrEmptyResponse, or a Go runtime panic from indexing past the end of the
response slice. -/
inductive LiveOutcome where
  | ok (key : List Nat)
  | emptyResponse
  | indexPanic
  deriving DecidableEq

/-- Embedding of the response handling in Client.Live (methods.go) after the
rewritten query was sent: res is the decoded array of basic responses,
keeping only the raw result bytes of each, and numParams is the number of
generated DEFINE PARAM statements (one per caller variable). The code sets
queryIndex to numParams, returns ErrEmptyResponse when the array is empty,
then reads res[queryIndex] - a Go index-out-of-range panic when the array is
shorter - returns ErrEmptyResponse when those bytes are empty and the key
otherwise. -/
def liveExtractKey (numParams : Nat) (res : List (List Nat)) : LiveOutcome :=
  if res.length < 1 then .emptyResponse
  else if h : numParams < res.length then
    if res[numParams] = [] then .emptyResponse
    else .ok res[numParams]
  else .indexPanic

--
-- HELPER LEMMAS
--

/-- A removed key is no longer found. -/
theorem Requests.get_remove_self (st : List (Key × Chan)) (k : Key) :
    Requests.get (Requests.remove st k) k = none := by
  induction st with
  | nil => rfl
  | cons e rest ih =>
      obtain ⟨k1, c1⟩ := e
      by_cases hk : k1 = k
      · simpa [Requests.remove, hk] using ih
      · simpa [Requests.remove, Requests.get, hk, Ne.symm hk] using ih

/-- Removing one key leaves lookups of every other key unchanged. -/
theorem Requests.get_remove_ne (st : List (Key × Chan)) (k k2 : Key) (hne : k2 ≠ k) :
    Requests.get (Requests.remove st k) k2 = Requests.get st k2 := by
  induction st with
  | nil => rfl
  | cons e rest ih =>
      obtain ⟨k1, c1⟩ := e
      by_cases hk : k1 = k
      · have hk2 : ¬(k2 = k1) := fun h => hne (h.trans hk)
        rw [show Requests.get ((k1, c1) :: rest) k2 = Requests.get rest k2 from by
          simp [Requests.get, hk2]]
        simpa [Requests.remove, hk] using ih
      · by_cases hk2 : k2 = k1
        · simp [Requests.remove, Requests.get, hk, hk2]
        · rw [show Requests.get ((k1, c1) :: rest) k2 = Requests.get rest k2 from by
            simp [Requests.get, hk2]]
          simpa [Requests.remove, Requests.get, hk, hk2] using ih

/-- A successful lookup exhibits a stored entry. -/
theorem Requests.get_mem {st : List (Key × Chan)} {k : Key} {c : Chan}
    (h : Requests.get st k = some c) : (k, c) ∈ st := by
  induction st with
  | nil => cases h
  | cons e rest ih =>
      obtain ⟨k1, c1⟩ := e
      by_cases hk : k = k1
      · simp only [Requests.get, if_pos hk] at h
        cases h
        simp [hk]
      · simp only [Requests.get, if_neg hk] at h
        exact List.mem_cons_of_mem _ (ih h)

/-- In a store whose channels are pairwise distinct, two entries sharing a
channel have the same key. -/
theorem mem_chan_inj {st : List (Key × Chan)} (hch : (st.map Prod.snd).Nodup)
    {k1 k2 : Key} {c : Chan} (h1 : (k1, c) ∈ st) (h2 : (k2, c) ∈ st) : k1 = k2 := by
  induction st with
  | nil => cases h1
  | cons e rest ih =>
      rw [List.map_cons, List.nodup_cons] at hch
      rcases List.mem_cons.mp h1 with he1 | hr1
      · rcases List.mem_cons.mp h2 with he2 | hr2
        · rw [← he2] at he1
          exact congrArg Prod.fst he1
        · exfalso
          apply hch.1
          rw [← he1]
          have hm : c ∈ rest.map Prod.snd := List.mem_map_of_mem Prod.snd hr2
          exact hm
      · rcases List.mem_cons.mp h2 with he2 | hr2
        · exfalso
          apply hch.1
          rw [← he2]
          have hm : c ∈ rest.map Prod.snd := List.mem_map_of_mem Prod.snd hr1
          exact hm
        · exact ih hch.2 hr1 hr2

/-- Round-trip arithmetic core for the duration codec: adding back, in
wrapping int64 arithmetic, the remainder that marshalling computed recovers
any in-range nanosecond count, for every value s of the abstract
seconds-conversion step. -/
theorem duration_roundtrip_core (d s : Int) (h1 : -i64Bound ≤ d) (h2 : d < i64Bound) :
    wrap64 (wrap64 (s * 1000000000) + wrap64 (d - wrap64 (s * 1000000000))) = d := by
  generalize s * 1000000000 = a
  unfold wrap64 i64Bound at *
  omega

--
-- CLAIM THEOREMS
--

/-- C10: encoding a nil DateTime pointer, a nil Duration pointer, or a nil
Decimal pointer succeeds and produces the plain CBOR null value, which is
neither the none tag nor any other tagged item, and no error. -/
theorem nil_pointer_marshal_null :
    DateTime.marshalCBOR none = .ok CborVal.null ∧
    Duration.marshalCBOROpt (fun d => d / 1000000000) none = .ok CborVal.null ∧
    Decimal.marshalCBOR none = .ok CborVal.null ∧
    (∀ n c, CborVal.null ≠ CborVal.tag n c) :=
  ⟨rfl, rfl, rfl, fun _ _ h => CborVal.noConfusion h⟩

/-- C3 counterexample: a constructed record identifier with an empty table
name does not fail to encode, contrary to the claim that every id with an
empty table yields an encode error; newRecordID.MarshalCBOR performs no
table check and happily emits the record-id tag around the string
":rand()". -/
theorem recordID_empty_table_cex :
    NewID "" = (⟨"", "rand()"⟩ : NewRecordID) ∧
    NewRecordID.marshalCBOR ⟨"", "rand()"⟩ =
      .ok (.tag cborTagRecordID (.str ":rand()")) :=
  ⟨rfl, rfl⟩

/-- C3 (amended): constructed ids always encode as the record-id tag around
the string table:constructor, with no emptiness check on the table; a
concrete id with a nil identifier encodes as the table tag around the bare
table string; a concrete id with an identifier encodes as the record-id tag
around the two-element array of table and identifier; and a concrete id -
but only a concrete id - with an empty table fails to encode with the
table-name-required error. -/
theorem recordID_encoding_amended (cid : ID) (nid : NewRecordID) :
    NewRecordID.marshalCBOR nid =
      .ok (.tag cborTagRecordID (.str (nid.table ++ ":" ++ nid.ctor))) ∧
    (cid.table ≠ "" → cid.identifier = none →
      ID.marshalCBOR cid = .ok (.tag cborTagTable (.str cid.table))) ∧
    (∀ idv, cid.table ≠ "" → cid.identifier = some idv →
      ID.marshalCBOR cid = .ok (.tag cborTagRecordID (.arr [.str cid.table, idv]))) ∧
    (cid.table = "" → ID.marshalCBOR cid = .error .tableNameRequired) := by
  refine ⟨rfl, ?_, ?_, ?_⟩
  · intro h1 h2
    simp [ID.marshalCBOR, h1, h2]
  · intro idv h1 h2
    simp [ID.marshalCBOR, h1, h2]
  · intro h1
    simp [ID.marshalCBOR, h1]

/-- Witness for recordID_encoding_amended at concrete identifiers. -/
theorem recordID_encoding_amended_witness :
    ID.marshalCBOR ⟨"t", none⟩ = .ok (.tag cborTagTable (.str "t")) ∧
    ID.marshalCBOR ⟨"t", some (.int 42)⟩ =
      .ok (.tag cborTagRecordID (.arr [.str "t", .int 42])) ∧
    ID.marshalCBOR ⟨"", some (.int 42)⟩ = .error .tableNameRequired :=
  ⟨(recordID_encoding_amended ⟨"t", none⟩ ⟨"t", "rand()"⟩).2.1 (by decide) rfl,
   (recordID_encoding_amended ⟨"t", some (.int 42)⟩ ⟨"t", "rand()"⟩).2.2.1
     (.int 42) (by decide) rfl,
   (recordID_encoding_amended ⟨"", some (.int 42)⟩ ⟨"t", "rand()"⟩).2.2.2 rfl⟩

/-- C8: on every CBOR input that decodes to an int64 array of one or two
elements, DateTime decode succeeds, taking the seconds from the first
element and the nanoseconds from the second element when present and zero
otherwise; on every such array of three or more elements it returns the
data-invalid error, so the target is only ever built from valid input. -/
theorem dateTime_decode_tolerance (data : CborVal) (val : List Int)
    (h : asIntList data = some val) :
    (∀ s, val = [s] → DateTime.unmarshalCBOR data = .ok (s, 0)) ∧
    (∀ s n, val = [s, n] → DateTime.unmarshalCBOR data = .ok (s, n)) ∧
    (3 ≤ val.length → DateTime.unmarshalCBOR data = .error .dataInvalid) := by
  refine ⟨?_, ?_, ?_⟩
  · rintro s rfl
    simp [DateTime.unmarshalCBOR, h]
  · rintro s n rfl
    simp [DateTime.unmarshalCBOR, h]
  · intro h3
    match val, h3 with
    | a :: b :: c :: rest, _ => simp [DateTime.unmarshalCBOR, h]

/-- Witness for dateTime_decode_tolerance at concrete datetime payloads. -/
theorem dateTime_decode_tolerance_witness :
    DateTime.unmarshalCBOR (.tag cborTagDatetime (.arr [.int 5])) = .ok (5, 0) ∧
    DateTime.unmarshalCBOR (.tag cborTagDatetime (.arr [.int 5, .int 7])) = .ok (5, 7) ∧
    DateTime.unmarshalCBOR (.tag cborTagDatetime (.arr [.int 1, .int 2, .int 3])) =
      .error .dataInvalid :=
  ⟨(dateTime_decode_tolerance (.tag cborTagDatetime (.arr [.int 5])) [5] rfl).1 5 rfl,
   (dateTime_decode_tolerance (.tag cborTagDatetime (.arr [.int 5, .int 7]))
     [5, 7] rfl).2.1 5 7 rfl,
   (dateTime_decode_tolerance (.tag cborTagDatetime (.arr [.int 1, .int 2, .int 3]))
     [1, 2, 3] rfl).2.2 (by decide)⟩

/-- C9: for every int64 duration d and every value s the abstract
float-mediated seconds conversion may produce, decoding the encoded pair of
seconds and remaining nanoseconds under the duration tag yields d again, and
decoding an empty array yields the zero duration. -/
theorem duration_roundtrip (d s : Int) (h1 : -i64Bound ≤ d) (h2 : d < i64Bound) :
    Duration.unmarshalCBOR (Duration.marshalCBOR d s) = .ok d ∧
    Duration.unmarshalCBOR (.arr []) = .ok 0 := by
  constructor
  · have hlist : asIntList (Duration.marshalCBOR d s) =
        some [s, wrap64 (d - wrap64 (s * 1000000000))] := rfl
    simp [Duration.unmarshalCBOR, hlist, duration_roundtrip_core d s h1 h2]
  · rfl

/-- Witness for duration_roundtrip at a concrete in-range duration (1.5
seconds, with the seconds conversion producing 1). -/
theorem duration_roundtrip_witness :
    Duration.unmarshalCBOR (Duration.marshalCBOR 1500000000 1) = .ok 1500000000 ∧
    Duration.unmarshalCBOR (.arr []) = .ok 0 :=
  duration_roundtrip 1500000000 1 (by decide) (by decide)

/-- C4 counterexample: with the string codec, the non-zero value "a" encodes
as its plain encoding, the bare text string; decoding that plain encoding
back into the wrapper does not recover the value: the RawTag decode inside
ZeroAsNone.UnmarshalCBOR rejects the untagged item, so the wrapper decode
fails instead of round-tripping. -/
theorem zeroAsNone_roundtrip_cex :
    ZeroAsNone.marshalCBOR strCodec "a" = .str "a" ∧
    ZeroAsNone.unmarshalCBOR strCodec (ZeroAsNone.marshalCBOR strCodec "a") =
      .error .unmarshalTypeError := by
  constructor
  · simp [ZeroAsNone.marshalCBOR, strCodec]
  · simp [ZeroAsNone.marshalCBOR, ZeroAsNone.unmarshalCBOR, strCodec, rawTagUnmarshal]

/-- C4 (amended): for every inner codec, the zero value encodes as the none
tag wrapping null, and decoding that none-tagged null yields the zero value;
a non-zero value encodes as its plain encoding; decoding that plain encoding
recovers the value exactly when the plain encoding is itself a tagged item
(with a tag other than none) whose content decodes back to the value, while
decoding an untagged, non-null plain encoding fails with an
unmarshal-type-error instead of round-tripping. -/
theorem zeroAsNone_amended {T : Type} [DecidableEq T] (C : PlainCodec T) (v : T) :
    ZeroAsNone.marshalCBOR C C.zero = .tag cborTagNone .null ∧
    ZeroAsNone.unmarshalCBOR C (.tag cborTagNone .null) = .ok C.zero ∧
    (v ≠ C.zero → ZeroAsNone.marshalCBOR C v = C.enc v) ∧
    (v ≠ C.zero → ∀ n c, C.enc v = .tag n c → n ≠ cborTagNone → C.dec c = .ok v →
      ZeroAsNone.unmarshalCBOR C (ZeroAsNone.marshalCBOR C v) = .ok v) ∧
    (v ≠ C.zero → (C.enc v).isTagged = false → (C.enc v).isNullish = false →
      ZeroAsNone.unmarshalCBOR C (ZeroAsNone.marshalCBOR C v) =
        .error .unmarshalTypeError) := by
  refine ⟨by simp [ZeroAsNone.marshalCBOR], rfl, ?_, ?_, ?_⟩
  · intro h
    simp [ZeroAsNone.marshalCBOR, h]
  · intro h n c henc hn hdec
    simp [ZeroAsNone.marshalCBOR, ZeroAsNone.unmarshalCBOR, h, henc,
      rawTagUnmarshal, hn, hdec]
  · intro h htag hnull
    rw [show ZeroAsNone.marshalCBOR C v = C.enc v from by simp [ZeroAsNone.marshalCBOR, h]]
    cases hv : C.enc v with
    | null => rw [hv] at hnull; cases hnull
    | undef => rw [hv] at hnull; cases hnull
    | tag n c => rw [hv] at htag; cases htag
    | bool b => simp [ZeroAsNone.unmarshalCBOR, rawTagUnmarshal]
    | int n => simp [ZeroAsNone.unmarshalCBOR, rawTagUnmarshal]
    | str s => simp [ZeroAsNone.unmarshalCBOR, rawTagUnmarshal]
    | bytes bs => simp [ZeroAsNone.unmarshalCBOR, rawTagUnmarshal]
    | flt bits => simp [ZeroAsNone.unmarshalCBOR, rawTagUnmarshal]
    | arr xs => simp [ZeroAsNone.unmarshalCBOR, rawTagUnmarshal]

/-- Witness for zeroAsNone_amended with the string codec and the non-zero
value "a". -/
theorem zeroAsNone_amended_witness :
    ZeroAsNone.marshalCBOR strCodec "" = .tag cborTagNone .null ∧
    ZeroAsNone.unmarshalCBOR strCodec (.tag cborTagNone .null) = .ok "" ∧
    ZeroAsNone.marshalCBOR strCodec "a" = strCodec.enc "a" ∧
    ZeroAsNone.unmarshalCBOR strCodec (ZeroAsNone.marshalCBOR strCodec "a") =
      .error .unmarshalTypeError := by
  obtain ⟨h1, h2, h3, _, h5⟩ := zeroAsNone_amended strCodec "a"
  exact ⟨h1, h2, h3 (by decide), h5 (by decide) rfl rfl⟩

/-- C6: a frame whose message type is not binary makes Client.read fail with
the framing-violation error value (ErrExpectedTextMessage, the kind the
specification calls ExpectedBinaryMessage), and the reader turn for that
frame decodes and dispatches nothing, whatever the decoders, registries and
select branch would have done. -/
theorem read_nonbinary_framing_error (f : Frame) (readOk : Bool)
    (hm : f.msgType ≠ MsgType.binary) :
    Client.read false false true f readOk = .error .expectedTextMessage ∧
    ∀ decodeResp decodeLiveID reqs lives sel,
      subscribeStep false false true f readOk decodeResp decodeLiveID reqs lives sel =
        .dropped := by
  have hr : Client.read false false true f readOk = .error .expectedTextMessage := by
    simp [Client.read, hm]
  exact ⟨hr, fun _ _ _ _ _ => by simp [subscribeStep, hr]⟩

/-- Witness for read_nonbinary_framing_error at a concrete text frame. -/
theorem read_nonbinary_framing_error_witness :
    Client.read false false true ⟨.text, [1, 2]⟩ true = .error .expectedTextMessage ∧
    subscribeStep false false true ⟨.text, [1, 2]⟩ true (fun _ => none) (fun _ => none)
      [] [] .deliver = .dropped := by
  obtain ⟨h1, h2⟩ := read_nonbinary_framing_error ⟨.text, [1, 2]⟩ true (by decide)
  exact ⟨h1, h2 (fun _ => none) (fun _ => none) [] [] .deliver⟩

/-- C7: whatever the write result and the wait outcome - delivery, write
error, caller cancellation or channel closure - the pending-request registry
no longer contains the minted correlation key once Client.send returns; the
channel-closed wait outcome surfaces ErrChannelClosed to the caller; and a
registry reset empties the store and closes every channel that was pending,
so a waiter parked on one of them takes exactly that channel-closed path. -/
theorem send_cleanup_and_reset (st : ReqState) (k : Key) (c : Chan)
    (writeOk : Bool) (w : WaitOutcome) :
    Requests.get (Client.send st k c writeOk w).2.store k = none ∧
    (Client.send st k c true .chanClosed).1 = .error .channelClosed ∧
    (ReqState.reset st).store = [] ∧
    (∀ key ch, (key, ch) ∈ st.store → ch ∈ (ReqState.reset st).closedChans) := by
  refine ⟨?_, rfl, rfl, ?_⟩
  · show Requests.get ((ReqState.prepare st k c).del k).store k = none
    have hget : Requests.get (ReqState.prepare st k c).store k = some c := by
      simp [ReqState.prepare, Requests.insert, Requests.get]
    simp only [ReqState.del, hget]
    exact Requests.get_remove_self _ k
  · intro key ch hmem
    simp only [ReqState.reset]
    exact List.mem_append_left _ (List.mem_map_of_mem Prod.snd hmem)

/-- Witness for send_cleanup_and_reset at a concrete registry holding one
pending entry. -/
theorem send_cleanup_and_reset_witness :
    Requests.get
      (Client.send ⟨[("a", 1)], []⟩ "b" 2 true (.delivered ⟨[], none⟩)).2.store "b" =
      none ∧
    (Client.send ⟨[("a", 1)], []⟩ "b" 2 true .chanClosed).1 = .error .channelClosed ∧
    (ReqState.reset ⟨[("a", 1)], []⟩).store = [] ∧
    (1 : Chan) ∈ (ReqState.reset ⟨[("a", 1)], []⟩).closedChans := by
  obtain ⟨h1, h2, h3, h4⟩ :=
    send_cleanup_and_reset ⟨[("a", 1)], []⟩ "b" 2 true (.delivered ⟨[], none⟩)
  exact ⟨h1, h2, h3, h4 "a" 1 (by simp)⟩

/-- C1: when the dispatcher delivers a response envelope with a correlation
id, the receiving channel is exactly the one registered under that id in the
pending registry; under the registry invariant that channels are pairwise
distinct (each send call mints a fresh channel), no channel registered under
a different key can receive it; and the subsequent cleanup by the woken
caller removes exactly that one pending entry, leaving every other entry
untouched. -/
theorem correlation_exact_delivery (reqs : List (Key × Chan)) (res : Response)
    (sel : SelectBranch) (ch : Chan) (out : Output)
    (hid : res.id ≠ "")
    (hch : (reqs.map Prod.snd).Nodup)
    (hdel : handleResult reqs res sel = some (ch, out)) :
    Requests.get reqs res.id = some ch ∧
    (∀ k c, (k, c) ∈ reqs → k ≠ res.id → c ≠ ch) ∧
    Requests.get (Requests.remove reqs res.id) res.id = none ∧
    (∀ k, k ≠ res.id → Requests.get (Requests.remove reqs res.id) k =
      Requests.get reqs k) := by
  have hget : Requests.get reqs res.id = some ch := by
    unfold handleResult at hdel
    cases hg : Requests.get reqs res.id with
    | none => rw [hg] at hdel; cases hdel
    | some ch2 =>
        rw [hg] at hdel
        cases sel with
        | deliver =>
            simp only [Option.some.injEq, Prod.mk.injEq] at hdel
            rw [hdel.1]
        | ctxDone => cases hdel
        | timeout => cases hdel
  refine ⟨hget, ?_, Requests.get_remove_self reqs res.id, ?_⟩
  · intro k c hmem hk hcc
    subst hcc
    exact hk (mem_chan_inj hch hmem (Requests.get_mem hget))
  · intro k hk
    exact Requests.get_remove_ne reqs res.id k hk

/-- Witness for correlation_exact_delivery at a registry with two pending
callers, the response correlating to the second. -/
theorem correlation_exact_delivery_witness :
    Requests.get [("k1", 1), ("k2", 2)] "k2" = some 2 ∧
    (1 : Chan) ≠ 2 ∧
    Requests.get (Requests.remove [("k1", 1), ("k2", 2)] "k2") "k2" = none ∧
    Requests.get (Requests.remove [("k1", 1), ("k2", 2)] "k2") "k1" = some 1 := by
  obtain ⟨h1, h2, h3, h4⟩ :=
    correlation_exact_delivery [("k1", 1), ("k2", 2)] ⟨"k2", [9], none⟩ .deliver 2
      ⟨[9], none⟩ (by decide) (by decide) rfl
  exact ⟨h1, fun hEq => h2 "k1" 1 (by simp) (by decide) hEq, h3, h4 "k1" (by decide)⟩

/-- C5 counterexample: a Live call without variables (zero generated params)
whose query response decodes to two basic responses takes the subscription
id from the first element, not the last: the code indexes the response array
at the number of generated params. -/
theorem live_last_element_cex :
    liveExtractKey 0 [[1], [2]] = .ok [1] ∧
    liveExtractKey 0 [[1], [2]] ≠ .ok [2] := by
  constructor
  · rfl
  · decide

/-- C5 (amended): the subscription id is taken from the response element at
index equal to the number of generated DEFINE PARAM statements, which is the
last element exactly when the response has one entry per generated statement
plus one for the live query; under that expected shape, an empty id at that
last element, like an empty response array in general, yields
ErrEmptyResponse and no subscription channel. -/
theorem live_key_amended (numParams : Nat) (res : List (List Nat)) (key : List Nat)
    (hlen : res.length = numParams + 1) (hlast : res.getLast? = some key) :
    liveExtractKey numParams res =
      (if key = [] then .emptyResponse else .ok key) ∧
    liveExtractKey numParams [] = .emptyResponse := by
  refine ⟨?_, rfl⟩
  have hlt : numParams < res.length := by omega
  have hidx : res[numParams] = key := by
    have h1 : res.getLast? = some res[numParams] := by
      rw [List.getLast?_eq_getElem?, hlen]
      simp
    rw [h1] at hlast
    exact Option.some.inj hlast
  unfold liveExtractKey
  rw [dif_pos hlt, if_neg (by omega), hidx]

/-- Witness for live_key_amended at a two-element response for one generated
param. -/
theorem live_key_amended_witness :
    liveExtractKey 1 [[0], [7]] = .ok [7] ∧
    liveExtractKey 1 [] = .emptyResponse := by
  obtain ⟨h1, h2⟩ := live_key_amended 1 [[0], [7]] [7] (by decide) (by decide)
  exact ⟨by simpa using h1, h2⟩

/-- C2 counterexample: constructing with the namespace bad-name does return
the invalid-namespace error, but only after openWebsocket has dialled the
server: the I/O trace of the failing construction contains the dial event,
so a connection is opened before the name validation runs. -/
theorem newClient_invalid_ns_dials_cex :
    NewClient ⟨"localhost", "bad-name", "db"⟩ = ([.dial], some .invalidNamespaceName) ∧
    IOEvent.dial ∈ (NewClient ⟨"localhost", "bad-name", "db"⟩).1 := by
  constructor
  · rfl
  · decide

/-- C2 (amended): for every configuration whose namespace name does not match
the name pattern, construction fails with InvalidNamespaceName, and with a
valid namespace but invalid database name it fails with InvalidDatabaseName;
in both cases the failure happens before any RPC (sign-in, use or query) is
issued, but after the websocket connection has been opened: the trace of the
failing construction is exactly the dial event. -/
theorem newClient_invalid_names_amended (conf : Config) :
    (regexName conf.ns = false →
      NewClient conf = ([.dial], some .invalidNamespaceName)) ∧
    (regexName conf.ns = true → regexName conf.database = false →
      NewClient conf = ([.dial], some .invalidDatabaseName)) := by
  constructor
  · intro h
    simp [NewClient, h]
  · intro h1 h2
    simp [NewClient, h1, h2]

/-- Witness for newClient_invalid_names_amended at concrete invalid
configurations. -/
theorem newClient_invalid_names_amended_witness :
    NewClient ⟨"h", "bad-name", "db"⟩ = ([.dial], some .invalidNamespaceName) ∧
    NewClient ⟨"h", "good_ns", "bad db"⟩ = ([.dial], some .invalidDatabaseName) :=
  ⟨(newClient_invalid_names_amended ⟨"h", "bad-name", "db"⟩).1 (by decide),
   (newClient_invalid_names_amended ⟨"h", "good_ns", "bad db"⟩).2 (by decide) (by decide)⟩

end Sdbc
